import Mathlib

/-!
# Sillyverse: a verified shallow embedding

This file embeds, in Lean, the core of the Sillyverse virtual machine:

* the assembler (`src/compiler/src/translator.rs`): address-token
  translation and the per-mnemonic instruction encoders;
* the emulator (`src/emulator/src/hardware/{mod,operations,operation_code}.rs`):
  the hardware state, operand resolution, the per-opcode handlers, the
  opcode decoder, the fetch-decode-execute clock, `load` and
  `increase_memory`.

Rust `u16`/`u8` values are represented as `Nat`, with wrap-around written
out explicitly (`% 65536`) at the spots where the Rust code can overflow,
saturating arithmetic as `min`/truncated subtraction, and fallible
operations as `Option` (the Rust error strings carry no meaning for the
properties proved here).  Rust `String` values handled by the assembler
are represented as `List Char`.

Theorems named `c1_...` to `c10_...` settle the corresponding claims;
`..._witness` theorems instantiate a claim theorem at concrete inputs and
`..._counterexample` theorems refute a claim at a concrete input.
-/

namespace Sillyverse

/-! ## Assembler (translator.rs) -/

namespace Translator

/-- One step of Rust `str::replace(pat, "")`: `true` iff `pat` occurs at
the head of `s` (`s.take pat.length = pat`). -/
def matchesAt (pat s : List Char) : Bool :=
  s.take pat.length = pat

/-- Fuel-driven worker for `removeOcc`; the fuel is always at least the
length of the string, so the `0` arm is never reached on real calls. -/
def removeOccAux (pat : List Char) : Nat → List Char → List Char
  | 0, s => s
  | _fuel + 1, [] => []
  | fuel + 1, c :: rest =>
    if pat ≠ [] ∧ matchesAt pat (c :: rest) then
      removeOccAux pat fuel ((c :: rest).drop pat.length)
    else
      c :: removeOccAux pat fuel rest

/-- Rust `String::replace(pat, "")`: removes every (leftmost-first,
non-overlapping) occurrence of `pat` from `s`.  In `translate_address`
the replacement string is always empty, so removal is all we model. -/
def removeOcc (pat s : List Char) : List Char :=
  removeOccAux pat s.length s

/-- Value of a digit run; `none` if some character is not an ASCII digit. -/
def digitsToNat (s : List Char) : Option Nat :=
  s.foldl
    (fun acc c =>
      acc.bind (fun a => if c.isDigit then some (a * 10 + (c.toNat - 48)) else none))
    (some 0)

/-- Rust `str::parse::<u8>()`: an optional leading `+`, then one or more
ASCII digits, value at most 255. -/
def parseU8 (s : List Char) : Option Nat :=
  let digits := match s with
    | '+' :: rest => rest
    | _ => s
  if digits = [] then none
  else match digitsToNat digits with
    | some v => if v ≤ 255 then some v else none
    | none => none

/-- Rust `str::starts_with`. -/
def startsWithTok (s pat : List Char) : Bool :=
  s.take pat.length = pat

/-- Embeds `translate_address` (translator.rs): translates an address token to
its 6-bit binary operand field.  Note that the Rust code removes *every*
occurrence of the matched prefix string (`String::replace`), not only the
leading one. -/
def translate_address (address_str : List Char) : Option Nat :=
  let checked : Option (Nat × List Char) :=
    if startsWithTok address_str ['r', 'p', 'm'] then
      some (0b00110000, removeOcc ['r', 'p', 'm'] address_str)
    else if startsWithTok address_str ['r', 'p'] then
      some (0b00100000, removeOcc ['r', 'p'] address_str)
    else if startsWithTok address_str ['m'] then
      some (0b00010000, removeOcc ['m'] address_str)
    else if startsWithTok address_str ['r'] then
      some (0b00000000, removeOcc ['r'] address_str)
    else
      none
  match checked with
  | none => none
  | some (address_type, address_value_str) =>
    match parseU8 address_value_str with
    | none => none
    | some address_value =>
      if address_value > 7 then none
      else some (address_type ||| address_value)

/-- The four mode prefixes in the order the source tests them
(longest-first): `rpm`, `rp`, `m`, `r`, with their mode bits. -/
def prefixTable : List (List Char × Nat) :=
  [(['r', 'p', 'm'], 0b00110000),
   (['r', 'p'], 0b00100000),
   (['m'], 0b00010000),
   (['r'], 0b00000000)]

/-- Definition following the amended claim words for translate_address: match a mode
prefix longest-first, remove every occurrence of the matched prefix
string from the token, and require the remaining characters to parse as
an unsigned integer in [0, 7]. -/
def translate_address_amended (address_str : List Char) : Option Nat :=
  match prefixTable.find? (fun e => startsWithTok address_str e.1) with
  | none => none
  | some e =>
    match parseU8 (removeOcc e.1 address_str) with
    | none => none
    | some v => if v ≤ 7 then some (e.2 ||| v) else none

/-- Embeds `skip_if_equal` encoder (translator.rs).  The source opcode literal is
`0b00101_000000000000u16` — seventeen binary digits, value `0x5000`. -/
def skip_if_equal (args : List (List Char)) : Option Nat :=
  match args with
  | [_, a1, a2] =>
    match translate_address a1, translate_address a2 with
    | some first_address, some second_address =>
      some (0x5000 ||| (first_address <<< 6) ||| second_address)
    | _, _ => none
  | _ => none

/-- Embeds `skip_if_greater` encoder (translator.rs).  The source opcode literal
is `0b00110_000000000000u16` — seventeen binary digits, value `0x6000`. -/
def skip_if_greater (args : List (List Char)) : Option Nat :=
  match args with
  | [_, a1, a2] =>
    match translate_address a1, translate_address a2 with
    | some first_address, some second_address =>
      some (0x6000 ||| (first_address <<< 6) ||| second_address)
    | _, _ => none
  | _ => none

end Translator

/-! ## Emulator (hardware/mod.rs, operations.rs, operation_code.rs) -/

namespace Emulator

/-- Embeds `CPUState` (cpu_state.rs): the projection of CPU state handed to a
host syscall callback. -/
structure CPUState where
  registers : List Nat
  error_flag : Bool
deriving Repr

/-- Embeds `CPUState::new` (cpu_state.rs): clones the registers, error flag
clear. -/
def CPUState.new (registers : List Nat) : CPUState :=
  { registers := registers, error_flag := false }

/-- Embeds `Hardware` (hardware/mod.rs).  The fields `call_stack` and
`underflow_flag` are used by operations.rs but their declaration is not
under src/; they are modelled from the spec ("A call stack of bounded
depth holding return PCs", "an `underflow` flag (set on return from empty
stack)").  The host callback, a weak reference to a `SysCallback` trait
object in Rust, is modelled as an optional function on the projection. -/
structure Hardware where
  memory : List Nat
  program_counter : Nat
  stack_pointer : Nat
  registers : List Nat
  call_stack : List Nat
  overflow_flag : Bool
  underflow_flag : Bool
  error_flag : Bool
  sys_callback : Option (CPUState → CPUState)

/-- Modelled from the spec: `Hardware::get_call_stack_size()`, the
configured maximum call-stack depth, is referenced by operations.rs but
not defined under src/; the spec fixes no numeric value ("Call stack
depth ≤ the configured maximum"), so an arbitrary positive constant is
used. -/
def get_call_stack_size : Nat := 16

/-- Embeds `Hardware::new` (hardware/mod.rs): zeroed memory of the given size,
zeroed registers, PC 0, empty call stack, flags clear, no callback. -/
def Hardware.new (memory_size : Nat) : Hardware :=
  { memory := List.replicate memory_size 0
    program_counter := 0
    stack_pointer := 0
    registers := List.replicate 8 0
    call_stack := []
    overflow_flag := false
    underflow_flag := false
    error_flag := false
    sys_callback := none }

/-- The `Address` enum (operations.rs). -/
inductive Address where
  | register (n : Nat)
  | memory (a : Nat)
  | registerPlusPC (v : Nat)
deriving Repr, DecidableEq

/-- Embeds `get_true_address` (operations.rs): resolves a 6-bit operand field.
Bits 5..4 are the mode, bits 3..0 the register index; index > 7 fails.
Mode `0b10` uses `saturating_add` (modelled as `min _ 65535`), mode
`0b11` uses `overflowing_add` and fails on 16-bit overflow and on an
out-of-memory address. -/
def get_true_address (hardware : Hardware) (address : Nat) : Option Address :=
  let address_type := address &&& 0b00110000
  let register_number := address &&& 0b00001111
  if register_number > 7 then none
  else if address_type = 0b00000000 then
    some (.register register_number)
  else if address_type = 0b00010000 then
    let memory_address := hardware.registers.getD register_number 0
    if memory_address ≥ hardware.memory.length then none
    else some (.memory memory_address)
  else if address_type = 0b00100000 then
    some (.registerPlusPC
      (min (hardware.registers.getD register_number 0 + hardware.program_counter) 65535))
  else
    let sum := hardware.registers.getD register_number 0 + hardware.program_counter
    if sum ≥ 65536 then none
    else if sum ≥ hardware.memory.length then none
    else some (.memory sum)

/-- Embeds `extract_one_operand_address` (operations.rs). -/
def extract_one_operand_address (instruction : Nat) : Nat :=
  instruction &&& 0b0000000000111111

/-- Embeds `extract_two_operand_address` (operations.rs). -/
def extract_two_operand_address (instruction : Nat) : Nat × Nat :=
  ((instruction &&& 0b0000111111000000) >>> 6, instruction &&& 0b0000000000111111)

/-- Reading through a resolved `Address` (the shared `match` arms of
operations.rs handlers): register and memory dereference, and the
computed value for `RegisterPlusPC`. -/
def readAddress (hardware : Hardware) : Address → Nat
  | .register n => hardware.registers.getD n 0
  | .memory a => hardware.memory.getD a 0
  | .registerPlusPC v => v

/-- Writing through a resolved `Address` (`RegisterPlusPC` is never
written through; handlers reject it before reaching a write). -/
def writeAddress (hardware : Hardware) (addr : Address) (v : Nat) : Hardware :=
  match addr with
  | .register n => { hardware with registers := hardware.registers.set n v }
  | .memory a => { hardware with memory := hardware.memory.set a v }
  | .registerPlusPC _ => hardware

/-- Embeds `extract_one_operand_value` (operations.rs). -/
def extract_one_operand_value (hardware : Hardware) (instruction : Nat)
    (supports_register_pc : Bool) : Option Nat :=
  match get_true_address hardware (extract_one_operand_address instruction) with
  | none => none
  | some (.register n) => some (hardware.registers.getD n 0)
  | some (.memory a) => some (hardware.memory.getD a 0)
  | some (.registerPlusPC v) => if supports_register_pc then some v else none

/-- Embeds `extract_two_operand_value` (operations.rs). -/
def extract_two_operand_value (hardware : Hardware) (instruction : Nat)
    (supports_register_pc : Bool) : Option (Nat × Nat) :=
  let addresses := extract_two_operand_address instruction
  match get_true_address hardware addresses.1 with
  | none => none
  | some fa =>
    let firstOk : Option Nat :=
      match fa with
      | .register n => some (hardware.registers.getD n 0)
      | .memory a => some (hardware.memory.getD a 0)
      | .registerPlusPC v => if supports_register_pc then some v else none
    match firstOk with
    | none => none
    | some first_value =>
      match get_true_address hardware addresses.2 with
      | none => none
      | some sa =>
        let secondOk : Option Nat :=
          match sa with
          | .register n => some (hardware.registers.getD n 0)
          | .memory a => some (hardware.memory.getD a 0)
          | .registerPlusPC v => if supports_register_pc then some v else none
        match secondOk with
        | none => none
        | some second_value => some (first_value, second_value)

/-- Handlers mutate the hardware in place in Rust even when they fail, so
each is modelled as returning the mutated state together with a success
flag (`true` = `Ok(())`, `false` = `Err(..)`). -/
abbrev StepResult := Hardware × Bool

/-- Embeds `nop` (operations.rs). -/
def nop (hardware : Hardware) (_instruction : Nat) : StepResult :=
  ({ hardware with program_counter := (hardware.program_counter + 1) % 65536 }, true)

/-- Embeds `syscall` (operations.rs) together with `Hardware::call_syscall`
(hardware/mod.rs): build the projection, invoke the callback (failing if
none is registered), copy the projection's registers back, increment the
PC, and only then fail if the projection's error flag is set. -/
def syscall (hardware : Hardware) (_instruction : Nat) : StepResult :=
  match hardware.sys_callback with
  | none => (hardware, false)
  | some callback =>
    let cpu_state := callback (CPUState.new hardware.registers)
    let hardware :=
      { hardware with
          registers :=
            (List.range hardware.registers.length).map
              (fun i => cpu_state.registers.getD i 0)
          program_counter := (hardware.program_counter + 1) % 65536 }
    if cpu_state.error_flag then
      ({ hardware with error_flag := true }, false)
    else
      (hardware, true)

/-- Embeds `return_subroutine` (operations.rs): pop the call stack into the PC;
on an empty stack set the underflow flag and fail.  `Vec::pop` removes
the last element. -/
def return_subroutine (hardware : Hardware) (_instruction : Nat) : StepResult :=
  match hardware.call_stack.getLast? with
  | some pc =>
    ({ hardware with program_counter := pc, call_stack := hardware.call_stack.dropLast }, true)
  | none => ({ hardware with underflow_flag := true }, false)

/-- Embeds `jump` (operations.rs). -/
def jump (hardware : Hardware) (instruction : Nat) : StepResult :=
  match extract_one_operand_value hardware instruction true with
  | some v => ({ hardware with program_counter := v }, true)
  | none => (hardware, false)

/-- Embeds `subroutine` (operations.rs): fail (setting the overflow flag) when
the call stack is at `get_call_stack_size`; otherwise push PC+1
(`Vec::push` appends at the end) and jump to the operand value.  The
push persists even if operand resolution then fails, as in the source. -/
def subroutine (hardware : Hardware) (instruction : Nat) : StepResult :=
  if hardware.call_stack.length = get_call_stack_size then
    ({ hardware with overflow_flag := true }, false)
  else
    let hardware :=
      { hardware with
          call_stack := hardware.call_stack ++ [(hardware.program_counter + 1) % 65536] }
    match extract_one_operand_value hardware instruction true with
    | some v => ({ hardware with program_counter := v }, true)
    | none => (hardware, false)

/-- Embeds `skip_if_zero` (operations.rs). -/
def skip_if_zero (hardware : Hardware) (instruction : Nat) : StepResult :=
  match extract_one_operand_value hardware instruction false with
  | none => (hardware, false)
  | some address_value =>
    if address_value = 0 then
      ({ hardware with program_counter := (hardware.program_counter + 2) % 65536 }, true)
    else
      ({ hardware with program_counter := (hardware.program_counter + 1) % 65536 }, true)

/-- Embeds `copy` (operations.rs): both operands must resolve to a location
(`RegisterPlusPC` is rejected for source and destination). -/
def copy (hardware : Hardware) (instruction : Nat) : StepResult :=
  let addresses := extract_two_operand_address instruction
  match get_true_address hardware addresses.1 with
  | none => (hardware, false)
  | some (.registerPlusPC _) => (hardware, false)
  | some sourceAddr =>
    let source_value := readAddress hardware sourceAddr
    match get_true_address hardware addresses.2 with
    | none => (hardware, false)
    | some (.registerPlusPC _) => (hardware, false)
    | some destinationAddr =>
      let hardware := writeAddress hardware destinationAddr source_value
      ({ hardware with program_counter := (hardware.program_counter + 1) % 65536 }, true)

/-- Embeds `add` (operations.rs): saturating 16-bit addition
(`u16::saturating_add`, modelled as `min _ 65535`), result stored back
through the second operand's location. -/
def add (hardware : Hardware) (instruction : Nat) : StepResult :=
  let addresses := extract_two_operand_address instruction
  match get_true_address hardware addresses.1 with
  | none => (hardware, false)
  | some (.registerPlusPC _) => (hardware, false)
  | some fa =>
    let first_value := readAddress hardware fa
    match get_true_address hardware addresses.2 with
    | none => (hardware, false)
    | some (.registerPlusPC _) => (hardware, false)
    | some sa =>
      let second_value := readAddress hardware sa
      let result := min (first_value + second_value) 65535
      let hardware := writeAddress hardware sa result
      ({ hardware with program_counter := (hardware.program_counter + 1) % 65536 }, true)

/-- Embeds `subtract` (operations.rs): saturating 16-bit subtraction
(`u16::saturating_sub`; truncated `Nat` subtraction is exactly
`max (u - v) 0`). -/
def subtract (hardware : Hardware) (instruction : Nat) : StepResult :=
  let addresses := extract_two_operand_address instruction
  match get_true_address hardware addresses.1 with
  | none => (hardware, false)
  | some (.registerPlusPC _) => (hardware, false)
  | some fa =>
    let first_value := readAddress hardware fa
    match get_true_address hardware addresses.2 with
    | none => (hardware, false)
    | some (.registerPlusPC _) => (hardware, false)
    | some sa =>
      let second_value := readAddress hardware sa
      let result := first_value - second_value
      let hardware := writeAddress hardware sa result
      ({ hardware with program_counter := (hardware.program_counter + 1) % 65536 }, true)

/-- Embeds `skip_if_equal` (operations.rs). -/
def skip_if_equal (hardware : Hardware) (instruction : Nat) : StepResult :=
  match extract_two_operand_value hardware instruction false with
  | none => (hardware, false)
  | some (first_value, second_value) =>
    if first_value = second_value then
      ({ hardware with program_counter := (hardware.program_counter + 2) % 65536 }, true)
    else
      ({ hardware with program_counter := (hardware.program_counter + 1) % 65536 }, true)

/-- Embeds `skip_if_greater` (operations.rs). -/
def skip_if_greater (hardware : Hardware) (instruction : Nat) : StepResult :=
  match extract_two_operand_value hardware instruction false with
  | none => (hardware, false)
  | some (first_value, second_value) =>
    if first_value > second_value then
      ({ hardware with program_counter := (hardware.program_counter + 2) % 65536 }, true)
    else
      ({ hardware with program_counter := (hardware.program_counter + 1) % 65536 }, true)

/-- Embeds `set` (operations.rs): bits 11..9 are the register index, bits 8..0
the constant. -/
def set (hardware : Hardware) (instruction : Nat) : StepResult :=
  let register_number := (0b0000111000000000 &&& instruction) >>> 9
  let constant := 0b0000000111111111 &&& instruction
  ({ hardware with
      registers := hardware.registers.set register_number constant
      program_counter := (hardware.program_counter + 1) % 65536 }, true)

/-- The operations registered in `Operations::new` (operations.rs). -/
inductive Op where
  | nop | syscall | return_subroutine
  | jump | skip_if_zero | subroutine
  | copy | add | subtract | skip_if_equal | skip_if_greater | set
deriving Repr, DecidableEq

/-- Embeds `Operations::get_function` (operations.rs) together with the
`OperationCode` shape masks (operation_code.rs): top 10 bits zero → key
is the low 6 bits; else top 4 bits zero → key is bits 11..6; else key is
bits 15..12.  Unknown keys decode to nothing. -/
def get_function (instruction : Nat) : Option Op :=
  if instruction &&& 0b1111111111000000 = 0 then
    match instruction &&& 0b0000000000111111 with
    | 0b000000 => some .nop
    | 0b000001 => some .syscall
    | 0b000010 => some .return_subroutine
    | _ => none
  else if instruction &&& 0b1111000000000000 = 0 then
    match instruction &&& 0b0000111111000000 with
    | 0b0000000001000000 => some .jump
    | 0b0000000010000000 => some .skip_if_zero
    | 0b0000000011000000 => some .subroutine
    | _ => none
  else
    match instruction &&& 0b1111000000000000 with
    | 0b0001000000000000 => some .copy
    | 0b0010000000000000 => some .add
    | 0b0011000000000000 => some .subtract
    | 0b0100000000000000 => some .skip_if_equal
    | 0b0101000000000000 => some .skip_if_greater
    | 0b0110000000000000 => some .set
    | _ => none

/-- Dispatch from a decoded operation to its handler. -/
def execute : Op → Hardware → Nat → StepResult
  | .nop => nop
  | .syscall => syscall
  | .return_subroutine => return_subroutine
  | .jump => jump
  | .skip_if_zero => skip_if_zero
  | .subroutine => subroutine
  | .copy => copy
  | .add => add
  | .subtract => subtract
  | .skip_if_equal => skip_if_equal
  | .skip_if_greater => skip_if_greater
  | .set => Emulator.set

/-- Embeds `Hardware::clock` (hardware/mod.rs): refuse when the error flag is
set; fail (without setting the flag) when the PC is outside memory or
the fetched word decodes to no operation; run the handler and set the
error flag exactly when the handler fails. -/
def clock (hardware : Hardware) : StepResult :=
  if hardware.error_flag then (hardware, false)
  else if hardware.program_counter ≥ hardware.memory.length then (hardware, false)
  else
    let instruction := hardware.memory.getD hardware.program_counter 0
    match get_function instruction with
    | none => (hardware, false)
    | some op =>
      let result := execute op hardware instruction
      if result.2 then (result.1, true)
      else ({ result.1 with error_flag := true }, false)

/-- The write loop of `Hardware::load`: `memory[start + i] = data[i]`
for `i` in `0..data.len()`, in increasing order of `i`. -/
def store (memory : List Nat) (start : Nat) : List Nat → List Nat
  | [] => memory
  | d :: ds => store (memory.set start d) (start + 1) ds

/-- Embeds `Hardware::load` (hardware/mod.rs): fails, touching nothing, when the
data does not fit; otherwise writes the data into memory from `start`. -/
def load (hardware : Hardware) (data : List Nat) (start : Nat) : Option Hardware :=
  if start + data.length > hardware.memory.length then none
  else some { hardware with memory := store hardware.memory start data }

/-- Embeds `Hardware::increase_memory` (hardware/mod.rs): zero additional bytes
fail; the current length is read back as a `u16` (hence `% 65536`);
`checked_add` fails on any 16-bit overflow, i.e. whenever the sum
exceeds 65535; on success the memory is extended with zeros and the new
size returned. -/
def increase_memory (hardware : Hardware) (additional : Nat) :
    Option (Nat × Hardware) :=
  if additional = 0 then none
  else
    let current_size := hardware.memory.length % 65536
    if current_size + additional > 65535 then none
    else
      some (current_size + additional,
        { hardware with memory := hardware.memory ++ List.replicate additional 0 })

end Emulator

/-! ## Helper lemmas -/

open Translator Emulator

theorem new_memory_length (size : Nat) :
    (Hardware.new size).memory.length = size := by
  simp [Hardware.new]

/-- Equation for `increase_memory` with its `let` unfolded. -/
theorem increase_memory_eq (hw : Hardware) (additional : Nat) :
    increase_memory hw additional =
      if additional = 0 then none
      else if hw.memory.length % 65536 + additional > 65535 then none
      else some (hw.memory.length % 65536 + additional,
        { hw with memory := hw.memory ++ List.replicate additional 0 }) := rfl

theorem writeAddress_memory_length (hw : Hardware) (a : Address) (v : Nat) :
    (writeAddress hw a v).memory.length = hw.memory.length := by
  cases a <;> simp [writeAddress]

theorem writeAddress_program_counter (hw : Hardware) (a : Address) (v : Nat) :
    (writeAddress hw a v).program_counter = hw.program_counter := by
  cases a <;> simp [writeAddress]

/-- No handler changes the length of the memory. -/
theorem execute_memory_length (op : Op) (hw : Hardware) (instruction : Nat) :
    ((execute op hw instruction).1).memory.length = hw.memory.length := by
  cases op <;>
    simp only [execute, nop, syscall, return_subroutine, jump, subroutine,
      skip_if_zero, copy, add, subtract, Emulator.skip_if_equal,
      Emulator.skip_if_greater, Emulator.set] <;>
    (repeat' split) <;>
    simp_all [writeAddress_memory_length]

/-- A clock step never changes the length of the memory. -/
theorem clock_memory_length (hw : Hardware) :
    ((clock hw).1).memory.length = hw.memory.length := by
  unfold clock
  split
  · rfl
  · split
    · rfl
    · dsimp only
      split
      · rfl
      · split
        · exact execute_memory_length ..
        · exact execute_memory_length ..

theorem clock_err (hw : Hardware) (h : hw.error_flag = true) :
    clock hw = (hw, false) := by
  simp [clock, h]

theorem clock_pc_oob (hw : Hardware) (h1 : hw.error_flag = false)
    (h2 : hw.program_counter ≥ hw.memory.length) :
    clock hw = (hw, false) := by
  simp [clock, h1, h2]

theorem clock_unknown (hw : Hardware) (h1 : hw.error_flag = false)
    (h2 : hw.program_counter < hw.memory.length)
    (h3 : get_function (hw.memory.getD hw.program_counter 0) = none) :
    clock hw = (hw, false) := by
  unfold clock
  rw [if_neg (by simp [h1]), if_neg (Nat.not_le.mpr h2)]
  dsimp only
  rw [h3]

theorem clock_exec_fail (hw : Hardware) (op : Op) (hw1 : Hardware)
    (h1 : hw.error_flag = false)
    (h2 : hw.program_counter < hw.memory.length)
    (h3 : get_function (hw.memory.getD hw.program_counter 0) = some op)
    (h4 : execute op hw (hw.memory.getD hw.program_counter 0) = (hw1, false)) :
    clock hw = ({ hw1 with error_flag := true }, false) := by
  unfold clock
  rw [if_neg (by simp [h1]), if_neg (Nat.not_le.mpr h2)]
  dsimp only
  rw [h3]
  dsimp only
  rw [h4]
  rfl

theorem clock_exec_ok (hw : Hardware) (op : Op) (hw1 : Hardware)
    (h1 : hw.error_flag = false)
    (h2 : hw.program_counter < hw.memory.length)
    (h3 : get_function (hw.memory.getD hw.program_counter 0) = some op)
    (h4 : execute op hw (hw.memory.getD hw.program_counter 0) = (hw1, true)) :
    clock hw = (hw1, true) := by
  unfold clock
  rw [if_neg (by simp [h1]), if_neg (Nat.not_le.mpr h2)]
  dsimp only
  rw [h3]
  dsimp only
  rw [h4]
  rfl

theorem store_length (data : List Nat) (memory : List Nat) (start : Nat) :
    (store memory start data).length = memory.length := by
  induction data generalizing memory start with
  | nil => rfl
  | cons d ds ih => simp [store, ih, List.length_set]

theorem store_getD_out (data memory : List Nat) (start j : Nat)
    (h : j < start ∨ start + data.length ≤ j) :
    (store memory start data).getD j 0 = memory.getD j 0 := by
  induction data generalizing memory start with
  | nil => rfl
  | cons d ds ih =>
    simp only [List.length_cons] at h
    have hj : start ≠ j := by omega
    rw [store, ih _ (start + 1) (by omega)]
    simp [List.getD_eq_getElem?_getD, List.getElem?_set_ne hj]

theorem store_getD_in (data memory : List Nat) (start i : Nat)
    (hfit : start + data.length ≤ memory.length) (hi : i < data.length) :
    (store memory start data).getD (start + i) 0 = data.getD i 0 := by
  induction data generalizing memory start i with
  | nil => simp at hi
  | cons d ds ih =>
    simp only [List.length_cons] at hfit hi
    cases i with
    | zero =>
      rw [store, store_getD_out ds _ (start + 1) (start + 0) (by omega)]
      have hs : start < (memory.set start d).length := by
        simp [List.length_set]; omega
      simp [List.getD_eq_getElem?_getD, List.getElem?_set_self (by simpa [List.length_set] using hs)]
    | succ k =>
      have : start + (k + 1) = (start + 1) + k := by omega
      rw [store, this, ih (memory.set start d) (start + 1) k (by simp [List.length_set]; omega) (by omega)]
      rfl

/-! ## Claim theorems -/

/-- Branches on the parsed value agree: the source rejects with
`if v > 7 then none` after the parse, the amended phrasing accepts with
`if v ≤ 7 then some _`. -/
theorem parse_guard_comm (t : Nat) (sub : List Char) :
    (match parseU8 sub with
      | none => none
      | some v => if v > 7 then none else some (t ||| v)) =
    (match parseU8 sub with
      | none => none
      | some v => if v ≤ 7 then some (t ||| v) else none) := by
  rcases parseU8 sub with _ | v
  · rfl
  · by_cases hv : v ≤ 7
    · simp [hv, Nat.not_lt.mpr hv]
    · simp [hv, Nat.lt_of_not_le hv]

/-- C1: the assembler's `skip_if_equal` encoder emits `0x5000 | a<<6 | b`
(not `0x4000 | ...`) and `skip_if_greater` emits `0x6000 | a<<6 | b`
(not `0x5000 | ...`); the emulator decodes `0x5001` to the
SKIP_IF_GREATER handler and `0x6001` to the SET handler, while `0x4001`
(the word the claim expects for `skip_if_equal r0 r1`) decodes to
SKIP_IF_EQUAL.  The claimed round-trip therefore fails on the code. -/
theorem c1_skip_encoders_decode_mismatch :
    Translator.skip_if_equal
      ["skip_if_equal".data, "r0".data, "r1".data] = some 0x5001 ∧
    get_function 0x5001 = some Op.skip_if_greater ∧
    get_function 0x4001 = some Op.skip_if_equal ∧
    Translator.skip_if_greater
      ["skip_if_greater".data, "r0".data, "r1".data] = some 0x6001 ∧
    get_function 0x6001 = some Op.set := by
  refine ⟨by decide, by decide, by decide, by decide, by decide⟩

/-- C9, counterexample: the token `m1m` strips to remainder `1m`, which
does not parse as an unsigned integer, so the claim says it is rejected;
the translator accepts it as `M1` (operand `0b010001` = 17) because
`String::replace` removes every occurrence of the prefix string. -/
theorem c9_counterexample :
    translate_address "m1m".data = some 17 ∧ parseU8 "1m".data = none := by
  exact ⟨by decide, by decide⟩

/-- C9, amended: the assembler matches a mode prefix longest-first among
`rpm`, `rp`, `m`, `r`; it then removes *every* occurrence of the matched
prefix string from the token (not only the leading one), and the
remaining characters must parse as an unsigned integer in [0, 7]; any
token whose remainder does not parse as such an integer is rejected. -/
theorem c9_translate_address_amended (s : List Char) :
    translate_address s = translate_address_amended s := by
  unfold translate_address translate_address_amended prefixTable
  cases h1 : startsWithTok s ['r', 'p', 'm'] <;>
  cases h2 : startsWithTok s ['r', 'p'] <;>
  cases h3 : startsWithTok s ['m'] <;>
  cases h4 : startsWithTok s ['r'] <;>
    simp only [List.find?, h1, h2, h3, h4, if_true, if_false, Bool.false_eq_true,
      ite_true, ite_false] <;>
    first
      | rfl
      | exact parse_guard_comm _ _

/-- C7: `load` fails, touching no memory cell, exactly when the data does
not fit; on success the data words appear at `start`, every other cell
keeps its value, and registers, PC and flags are untouched. -/
theorem c7_load_correct (hw : Hardware) (data : List Nat) (start : Nat) :
    (start + data.length > hw.memory.length → load hw data start = none) ∧
    (start + data.length ≤ hw.memory.length →
      ∃ hw1, load hw data start = some hw1 ∧
        hw1.memory.length = hw.memory.length ∧
        (∀ i, i < data.length → hw1.memory.getD (start + i) 0 = data.getD i 0) ∧
        (∀ j, j < start ∨ start + data.length ≤ j →
          hw1.memory.getD j 0 = hw.memory.getD j 0) ∧
        hw1.registers = hw.registers ∧
        hw1.program_counter = hw.program_counter ∧
        hw1.call_stack = hw.call_stack ∧
        hw1.error_flag = hw.error_flag ∧
        hw1.overflow_flag = hw.overflow_flag ∧
        hw1.underflow_flag = hw.underflow_flag) := by
  constructor
  · intro h
    simp [load, h]
  · intro h
    refine ⟨{ hw with memory := store hw.memory start data }, ?_,
      store_length .., ?_, ?_, rfl, rfl, rfl, rfl, rfl, rfl⟩
    · simp [load, Nat.not_lt.mpr h]
    · intro i hi
      exact store_getD_in data hw.memory start i h hi
    · intro j hj
      exact store_getD_out data hw.memory start j hj

/-- C7 witness: loading `[5, 6]` at address 1 of a fresh 3-word machine
succeeds and writes cells 1 and 2; loading it at address 3 fails. -/
theorem c7_load_correct_witness :
    load (Hardware.new 3) [5, 6] 3 = none ∧
    ∃ hw1, load (Hardware.new 3) [5, 6] 1 = some hw1 ∧
      hw1.memory.getD 1 0 = 5 ∧ hw1.memory.getD 2 0 = 6 ∧
      hw1.memory.getD 0 0 = 0 := by
  constructor
  · exact (c7_load_correct (Hardware.new 3) [5, 6] 3).1 (by simp [Hardware.new])
  · obtain ⟨hw1, hload, _, hin, hout, _⟩ :=
      (c7_load_correct (Hardware.new 3) [5, 6] 1).2 (by simp [Hardware.new])
    refine ⟨hw1, hload, ?_, ?_, ?_⟩
    · simpa using hin 0 (by norm_num)
    · simpa using hin 1 (by norm_num)
    · have := hout 0 (by norm_num)
      simpa [Hardware.new] using this

/-- C8 counterexample: growing a 65535-word memory by 1 reaches exactly
65536 words, which the claim says should succeed (`N + delta` is not
`> 65536`), yet `checked_add` on `u16` overflows and the call fails. -/
theorem c8_counterexample :
    increase_memory (Hardware.new 65535) 1 = none ∧
    ¬((1 : Nat) = 0 ∨ 65535 + 1 > 65536) := by
  constructor
  · rw [increase_memory_eq, new_memory_length]
    norm_num
  · norm_num

/-- C8, amended: for a memory of length `N ≤ 65535`, `increase_memory
delta` fails exactly when `delta = 0` or `N + delta ≥ 65536` (any 16-bit
overflow of the sum), and leaves the memory untouched on failure; on
success it returns the new size `N + delta`, the appended cells are
zero, and the existing contents, registers, PC and flags are
preserved. -/
theorem c8_increase_memory_amended (hw : Hardware) (additional : Nat)
    (hlen : hw.memory.length ≤ 65535) :
    (increase_memory hw additional = none ↔
      additional = 0 ∨ hw.memory.length + additional ≥ 65536) ∧
    (∀ r hw1, increase_memory hw additional = some (r, hw1) →
      r = hw.memory.length + additional ∧
      hw1.memory = hw.memory ++ List.replicate additional 0 ∧
      hw1.memory.length = hw.memory.length + additional ∧
      hw1.registers = hw.registers ∧
      hw1.program_counter = hw.program_counter ∧
      hw1.call_stack = hw.call_stack ∧
      hw1.error_flag = hw.error_flag ∧
      hw1.overflow_flag = hw.overflow_flag ∧
      hw1.underflow_flag = hw.underflow_flag) := by
  have hmod : hw.memory.length % 65536 = hw.memory.length :=
    Nat.mod_eq_of_lt (by omega)
  constructor
  · rw [increase_memory_eq, hmod]
    constructor
    · intro h
      split_ifs at h with h1 h2
      · exact Or.inl h1
      · exact Or.inr (by omega)
    · intro h
      split_ifs with h1 h2
      · rfl
      · rfl
      · rcases h with h | h
        · exact absurd h h1
        · omega
  · intro r hw1 h
    rw [increase_memory_eq, hmod] at h
    split_ifs at h with h1 h2
    simp only [Option.some.injEq, Prod.mk.injEq] at h
    obtain ⟨hr, hhw⟩ := h
    subst hhw
    exact ⟨hr.symm, rfl, by simp, rfl, rfl, rfl, rfl, rfl, rfl⟩

/-- C8 witness: growing a 3000-word memory by 2500 yields 5500 zeroed-in
new cells; growing by 0 fails. -/
theorem c8_increase_memory_amended_witness :
    (increase_memory (Hardware.new 3000) 0 = none) ∧
    ∀ r hw1, increase_memory (Hardware.new 3000) 2500 = some (r, hw1) →
      r = 5500 ∧ hw1.memory.length = 5500 := by
  constructor
  · exact ((c8_increase_memory_amended (Hardware.new 3000) 0
      (by rw [new_memory_length]; norm_num)).1).mpr (Or.inl rfl)
  · intro r hw1 h
    obtain ⟨hr, _, hlen, _⟩ :=
      (c8_increase_memory_amended (Hardware.new 3000) 2500
        (by rw [new_memory_length]; norm_num)).2 r hw1 h
    constructor
    · rw [hr, new_memory_length]
    · rw [hlen, new_memory_length]

/-- C10: the memory length never exceeds 65535 words through the public
interface: `new` takes a 16-bit size, `load` and `clock` preserve the
length, and `increase_memory` rejects any growth whose 16-bit sum
overflows, so the spec's 65536-word maximum is unreachable. -/
theorem c10_memory_bound_invariant :
    (∀ size, size < 65536 → (Hardware.new size).memory.length ≤ 65535) ∧
    (∀ hw : Hardware, ∀ data start hw1, load hw data start = some hw1 →
      hw1.memory.length = hw.memory.length) ∧
    (∀ hw : Hardware, ∀ additional r hw1, hw.memory.length ≤ 65535 →
      increase_memory hw additional = some (r, hw1) →
      hw1.memory.length ≤ 65535) ∧
    (∀ hw : Hardware, ((clock hw).1).memory.length = hw.memory.length) := by
  refine ⟨?_, ?_, ?_, clock_memory_length⟩
  · intro size h
    rw [new_memory_length]
    omega
  · intro hw data start hw1 h
    rw [load] at h
    split at h
    · exact absurd h (by simp)
    · simp only [Option.some.injEq] at h
      subst h
      exact store_length ..
  · intro hw additional r hw1 hlen h
    have hmod : hw.memory.length % 65536 = hw.memory.length :=
      Nat.mod_eq_of_lt (by omega)
    rw [increase_memory_eq, hmod] at h
    split_ifs at h with h1 h2
    simp only [Option.some.injEq, Prod.mk.injEq] at h
    obtain ⟨_, hhw⟩ := h
    subst hhw
    simp
    omega

/-- C10 witness: a machine built with the maximal 16-bit size 65535 has
65535 memory words; a load and a clock keep that length; growing it is
refused. -/
theorem c10_memory_bound_invariant_witness :
    (Hardware.new 65535).memory.length ≤ 65535 ∧
    ((clock (Hardware.new 4)).1).memory.length = (Hardware.new 4).memory.length ∧
    ∀ hw1, load (Hardware.new 4) [7] 0 = some hw1 →
      hw1.memory.length = (Hardware.new 4).memory.length := by
  refine ⟨c10_memory_bound_invariant.1 65535 (by norm_num), ?_, ?_⟩
  · exact c10_memory_bound_invariant.2.2.2 (Hardware.new 4)
  · intro hw1 h
    exact c10_memory_bound_invariant.2.1 (Hardware.new 4) [7] 0 hw1 h

/-- C2 counterexample: a failed clock that does NOT set the error flag.
The single memory word `0xF000` decodes to no operation, the clock
fails, and the error flag stays clear — refuting "every failed clock()
sets the sticky error flag" and in particular "decoding an unknown
opcode [...] set[s] the error flag". -/
theorem c2_counterexample :
    (clock { Hardware.new 1 with memory := [0xF000] }).2 = false ∧
    (clock { Hardware.new 1 with memory := [0xF000] }).1.error_flag = false ∧
    get_function 0xF000 = none := by
  exact ⟨rfl, rfl, rfl⟩

/-- C2, amended: only a failed handler execution sets the sticky error
flag; fetching with PC ≥ memory length and decoding an unknown opcode
fail the clock but leave the state — in particular the error flag —
unchanged; once the error flag is set a clock fails immediately with the
state unchanged; and after any failed clock the next clock also fails
(immediately when the flag was set, otherwise by failing the same fetch
or decode check again). -/
theorem c2_clock_failure_amended (hw : Hardware) :
    (hw.error_flag = true → clock hw = (hw, false)) ∧
    (hw.error_flag = false → hw.program_counter ≥ hw.memory.length →
      clock hw = (hw, false)) ∧
    (hw.error_flag = false → hw.program_counter < hw.memory.length →
      get_function (hw.memory.getD hw.program_counter 0) = none →
      clock hw = (hw, false)) ∧
    (∀ op hw1, hw.error_flag = false → hw.program_counter < hw.memory.length →
      get_function (hw.memory.getD hw.program_counter 0) = some op →
      execute op hw (hw.memory.getD hw.program_counter 0) = (hw1, false) →
      clock hw = ({ hw1 with error_flag := true }, false)) ∧
    ((clock hw).2 = false → (clock (clock hw).1).2 = false) := by
  refine ⟨clock_err hw, clock_pc_oob hw, clock_unknown hw, ?_, ?_⟩
  · intro op hw1 h1 h2 h3 h4
    exact clock_exec_fail hw op hw1 h1 h2 h3 h4
  · intro hfail
    by_cases h1 : hw.error_flag
    · rw [clock_err hw h1]
      exact congrArg Prod.snd (clock_err hw h1)
    · have h1f : hw.error_flag = false := by simpa using h1
      by_cases h2 : hw.program_counter ≥ hw.memory.length
      · rw [clock_pc_oob hw h1f h2]
        exact congrArg Prod.snd (clock_pc_oob hw h1f h2)
      · have h2lt : hw.program_counter < hw.memory.length := Nat.lt_of_not_le h2
        rcases h3 : get_function (hw.memory.getD hw.program_counter 0) with _ | op
        · rw [clock_unknown hw h1f h2lt h3]
          exact congrArg Prod.snd (clock_unknown hw h1f h2lt h3)
        · rcases h4 : execute op hw (hw.memory.getD hw.program_counter 0) with ⟨hw1, ok⟩
          cases ok
          · rw [clock_exec_fail hw op hw1 h1f h2lt h3 h4]
            exact congrArg Prod.snd (clock_err _ rfl)
          · rw [clock_exec_ok hw op hw1 h1f h2lt h3 h4] at hfail
            exact absurd hfail (by simp)

/-- C2 witness: a machine whose error flag is set refuses the clock
with its state unchanged, and a machine with PC beyond memory fails the
clock. -/
theorem c2_clock_failure_amended_witness :
    clock { Hardware.new 1 with error_flag := true } =
      ({ Hardware.new 1 with error_flag := true }, false) ∧
    clock (Hardware.new 0) = (Hardware.new 0, false) := by
  constructor
  · exact (c2_clock_failure_amended { Hardware.new 1 with error_flag := true }).1 rfl
  · exact (c2_clock_failure_amended (Hardware.new 0)).2.1 rfl
      (by rw [new_memory_length]; exact Nat.zero_le 0)

/-- C3 counterexample: with a callback that sets the projection's error
flag, SYSCALL fails and sets the CPU error flag — but the PC has been
incremented from 0 to 1, refuting "on the error path PC stays
unchanged". -/
theorem c3_counterexample :
    (Emulator.syscall
      { Hardware.new 2 with
          memory := [1, 0],
          sys_callback := some (fun st => { st with error_flag := true }) } 1).2
        = false ∧
    (Emulator.syscall
      { Hardware.new 2 with
          memory := [1, 0],
          sys_callback := some (fun st => { st with error_flag := true }) } 1).1.error_flag
        = true ∧
    { Hardware.new 2 with
        memory := [1, 0],
        sys_callback := some (fun st => { st with error_flag := true })
        : Hardware }.program_counter = 0 ∧
    (Emulator.syscall
      { Hardware.new 2 with
          memory := [1, 0],
          sys_callback := some (fun st => { st with error_flag := true }) } 1).1.program_counter
        = 1 := by
  exact ⟨rfl, rfl, rfl, rfl⟩

/-- C3, amended: on executing SYSCALL with a registered callback, the
projection's eight registers are copied back into the CPU and the PC is
incremented by 1 unconditionally; the clock then fails — with the CPU
error flag set — exactly when the projection's error flag is set (the
PC having been incremented on the error path as well). -/
theorem c3_syscall_amended (hw : Hardware) (instruction : Nat)
    (callback : CPUState → CPUState)
    (h : hw.sys_callback = some callback)
    (hpc : hw.program_counter + 1 < 65536) :
    (Emulator.syscall hw instruction).1.program_counter = hw.program_counter + 1 ∧
    (Emulator.syscall hw instruction).1.registers =
      (List.range hw.registers.length).map
        (fun i => (callback (CPUState.new hw.registers)).registers.getD i 0) ∧
    ((Emulator.syscall hw instruction).2 = false ↔
      (callback (CPUState.new hw.registers)).error_flag = true) ∧
    (Emulator.syscall hw instruction).1.error_flag =
      (hw.error_flag || (callback (CPUState.new hw.registers)).error_flag) := by
  rcases herr : (callback (CPUState.new hw.registers)).error_flag <;>
    simp [Emulator.syscall, h, herr, Nat.mod_eq_of_lt hpc]

/-- C3 witness: with an identity callback the SYSCALL succeeds, copies
the registers back verbatim, and advances PC from 0 to 1. -/
theorem c3_syscall_amended_witness :
    (Emulator.syscall { Hardware.new 2 with sys_callback := some (fun st => st) } 1).1.program_counter = 1 ∧
    (Emulator.syscall { Hardware.new 2 with sys_callback := some (fun st => st) } 1).2 = true := by
  have h := c3_syscall_amended
    { Hardware.new 2 with sys_callback := some (fun st => st) } 1 (fun st => st)
    rfl (by simp [Hardware.new])
  obtain ⟨hp, _, hiff, _⟩ := h
  constructor
  · simpa [Hardware.new] using hp
  · have : ¬((Emulator.syscall { Hardware.new 2 with sys_callback := some (fun st => st) } 1).2 = false) := by
      rw [hiff]
      simp [CPUState.new]
    simpa using this

/-- Register-index and mode bits of a 6-bit operand field written as
`16 * mode + n`. -/
theorem operand_and_mask (mode n : Nat) (hm : mode < 4) (hn : n < 16) :
    (16 * mode + n) &&& 0b1111 = n ∧ (16 * mode + n) &&& 0b110000 = 16 * mode := by
  interval_cases mode <;> interval_cases n <;> exact ⟨by decide, by decide⟩

/-- C4: resolution of a 6-bit operand field `16 * mode + n`: a register
index above 7 fails; mode 00 resolves to register `n`; mode 01 resolves
to `Memory[r[n]]` and fails when `r[n]` is outside memory; mode 10
resolves to `r[n]` saturating-added to PC and never fails; mode 11 fails
when `r[n] + PC` overflows 16 bits or reaches past memory, and otherwise
resolves to `Memory[r[n] + PC]`. -/
theorem c4_operand_resolution (hw : Hardware) (mode n : Nat)
    (hm : mode < 4) (hn : n < 16) :
    (7 < n → get_true_address hw (16 * mode + n) = none) ∧
    (n ≤ 7 →
      (mode = 0 → get_true_address hw (16 * mode + n) =
        some (.register n)) ∧
      (mode = 1 →
        (hw.registers.getD n 0 < hw.memory.length →
          get_true_address hw (16 * mode + n) =
            some (.memory (hw.registers.getD n 0))) ∧
        (hw.registers.getD n 0 ≥ hw.memory.length →
          get_true_address hw (16 * mode + n) = none)) ∧
      (mode = 2 → get_true_address hw (16 * mode + n) =
        some (.registerPlusPC
          (min (hw.registers.getD n 0 + hw.program_counter) 65535))) ∧
      (mode = 3 →
        (hw.registers.getD n 0 + hw.program_counter ≥ 65536 →
          get_true_address hw (16 * mode + n) = none) ∧
        (hw.registers.getD n 0 + hw.program_counter < 65536 →
          hw.registers.getD n 0 + hw.program_counter ≥ hw.memory.length →
          get_true_address hw (16 * mode + n) = none) ∧
        (hw.registers.getD n 0 + hw.program_counter < 65536 →
          hw.registers.getD n 0 + hw.program_counter < hw.memory.length →
          get_true_address hw (16 * mode + n) =
            some (.memory (hw.registers.getD n 0 + hw.program_counter))))) := by
  obtain ⟨h15, h48⟩ := operand_and_mask mode n hm hn
  unfold get_true_address
  rw [h15, h48]
  constructor
  · intro h7
    rw [if_pos h7]
  · intro h7
    rw [if_neg (Nat.not_lt.mpr h7)]
    refine ⟨?_, ?_, ?_, ?_⟩
    · intro hmode
      subst hmode
      rw [if_pos (by norm_num)]
    · intro hmode
      subst hmode
      rw [if_neg (by norm_num), if_pos (by norm_num)]
      constructor
      · intro hlt
        rw [if_neg (Nat.not_le.mpr hlt)]
      · intro hge
        rw [if_pos hge]
    · intro hmode
      subst hmode
      rw [if_neg (by norm_num), if_neg (by norm_num), if_pos (by norm_num)]
    · intro hmode
      subst hmode
      rw [if_neg (by norm_num), if_neg (by norm_num), if_neg (by norm_num)]
      dsimp only
      refine ⟨?_, ?_, ?_⟩
      · intro hov
        rw [if_pos hov]
      · intro hov hge
        rw [if_neg (Nat.not_le.mpr (by omega)), if_pos hge]
      · intro hov hlt
        rw [if_neg (Nat.not_le.mpr (by omega)), if_neg (Nat.not_le.mpr hlt)]

/-- C4 witness: on a fresh 2-word machine, operand field 16 (mode 01,
register 0, `r0 = 0 < 2`) resolves to memory cell 0, and operand field 8
(register index 8) is rejected. -/
theorem c4_operand_resolution_witness :
    get_true_address (Hardware.new 2) 16 = some (.memory 0) ∧
    get_true_address (Hardware.new 2) 8 = none := by
  constructor
  · have h := ((c4_operand_resolution (Hardware.new 2) 1 0 (by norm_num)
      (by norm_num)).2 (by norm_num)).2.1 rfl
    exact h.1 (by rw [new_memory_length]; simp [Hardware.new])
  · have h := (c4_operand_resolution (Hardware.new 2) 0 8 (by norm_num)
      (by norm_num)).1 (by norm_num)
    simpa using h

/-- C5: when both operands of ADD and SUBTRACT resolve to locations
(register or memory) holding 16-bit values `u` and `v`, ADD stores
`min(u + v, 65535)` through the second operand location and SUBTRACT
stores `u - v` truncated at 0 (`max(u - v, 0)`), each succeeding and
advancing the PC by exactly 1; saturation never fails. -/
theorem c5_add_subtract_saturating (hw : Hardware) (instruction : Nat)
    (fa sa : Address) (u v : Nat)
    (h1 : get_true_address hw ((instruction &&& 0b0000111111000000) >>> 6) = some fa)
    (h2 : ∀ w, fa ≠ .registerPlusPC w)
    (h3 : get_true_address hw (instruction &&& 0b0000000000111111) = some sa)
    (h4 : ∀ w, sa ≠ .registerPlusPC w)
    (hu : readAddress hw fa = u) (hv : readAddress hw sa = v)
    (hu16 : u ≤ 65535) (hv16 : v ≤ 65535)
    (hpc : hw.program_counter + 1 < 65536) :
    add hw instruction =
      ({ writeAddress hw sa (min (u + v) 65535) with
          program_counter := hw.program_counter + 1 }, true) ∧
    subtract hw instruction =
      ({ writeAddress hw sa (u - v) with
          program_counter := hw.program_counter + 1 }, true) := by
  subst hu
  subst hv
  constructor
  · unfold add
    dsimp only [extract_two_operand_address]
    rw [h1]
    cases fa with
    | registerPlusPC w => exact absurd rfl (h2 w)
    | register rn =>
      dsimp only
      rw [h3]
      cases sa with
      | registerPlusPC w => exact absurd rfl (h4 w)
      | register sn =>
        dsimp only [readAddress, writeAddress]
        rw [Nat.mod_eq_of_lt hpc]
      | memory sm =>
        dsimp only [readAddress, writeAddress]
        rw [Nat.mod_eq_of_lt hpc]
    | memory rm =>
      dsimp only
      rw [h3]
      cases sa with
      | registerPlusPC w => exact absurd rfl (h4 w)
      | register sn =>
        dsimp only [readAddress, writeAddress]
        rw [Nat.mod_eq_of_lt hpc]
      | memory sm =>
        dsimp only [readAddress, writeAddress]
        rw [Nat.mod_eq_of_lt hpc]
  · unfold subtract
    dsimp only [extract_two_operand_address]
    rw [h1]
    cases fa with
    | registerPlusPC w => exact absurd rfl (h2 w)
    | register rn =>
      dsimp only
      rw [h3]
      cases sa with
      | registerPlusPC w => exact absurd rfl (h4 w)
      | register sn =>
        dsimp only [readAddress, writeAddress]
        rw [Nat.mod_eq_of_lt hpc]
      | memory sm =>
        dsimp only [readAddress, writeAddress]
        rw [Nat.mod_eq_of_lt hpc]
    | memory rm =>
      dsimp only
      rw [h3]
      cases sa with
      | registerPlusPC w => exact absurd rfl (h4 w)
      | register sn =>
        dsimp only [readAddress, writeAddress]
        rw [Nat.mod_eq_of_lt hpc]
      | memory sm =>
        dsimp only [readAddress, writeAddress]
        rw [Nat.mod_eq_of_lt hpc]

/-- C5 witness: with `r0 = 60000` and `r1 = 9000`, the instruction whose
operand fields name `r0` and `r1` makes ADD store the saturated 65535
into `r1` and SUBTRACT store 51000, each advancing PC to 1. -/
theorem c5_add_subtract_saturating_witness :
    (add { Hardware.new 3 with
        registers := [60000, 9000, 0, 0, 0, 0, 0, 0] } 1).1.registers =
      [60000, 65535, 0, 0, 0, 0, 0, 0] ∧
    (add { Hardware.new 3 with
        registers := [60000, 9000, 0, 0, 0, 0, 0, 0] } 1).2 = true ∧
    (subtract { Hardware.new 3 with
        registers := [60000, 9000, 0, 0, 0, 0, 0, 0] } 1).1.registers =
      [60000, 51000, 0, 0, 0, 0, 0, 0] ∧
    (subtract { Hardware.new 3 with
        registers := [60000, 9000, 0, 0, 0, 0, 0, 0] } 1).1.program_counter = 1 := by
  obtain ⟨hadd, hsub⟩ := c5_add_subtract_saturating
    { Hardware.new 3 with registers := [60000, 9000, 0, 0, 0, 0, 0, 0] } 1
    (.register 0) (.register 1) 60000 9000
    (by decide) (by intro w h; cases h) (by decide) (by intro w h; cases h)
    rfl rfl (by norm_num) (by norm_num) (by simp [Hardware.new])
  rw [hadd, hsub]
  exact ⟨rfl, rfl, rfl, rfl⟩

/-- C6: SUBROUTINE fails, setting the overflow flag, when the call stack
holds `get_call_stack_size` entries; otherwise it pushes PC+1 and jumps
to the resolved operand value.  RETURN pops the newest entry into the PC
and fails, setting the underflow flag, on an empty stack.  Consequently
a balanced SUBROUTINE/RETURN pair with no intervening stack mutation
leaves the PC at the address following the SUBROUTINE. -/
theorem c6_subroutine_return (hw hw2 : Hardware) (instruction instruction2 : Nat) :
    (hw.call_stack.length = get_call_stack_size →
      subroutine hw instruction = ({ hw with overflow_flag := true }, false)) ∧
    (∀ v, hw.call_stack.length ≠ get_call_stack_size →
      extract_one_operand_value
        { hw with call_stack :=
            hw.call_stack ++ [(hw.program_counter + 1) % 65536] }
        instruction true = some v →
      subroutine hw instruction =
        ({ hw with
            call_stack := hw.call_stack ++ [(hw.program_counter + 1) % 65536],
            program_counter := v }, true)) ∧
    (hw.call_stack = [] →
      return_subroutine hw instruction = ({ hw with underflow_flag := true }, false)) ∧
    (∀ p, hw.call_stack.getLast? = some p →
      return_subroutine hw instruction =
        ({ hw with
            program_counter := p,
            call_stack := hw.call_stack.dropLast }, true)) ∧
    (∀ hw1 hw3, hw.program_counter + 1 < 65536 →
      subroutine hw instruction = (hw1, true) →
      hw2.call_stack = hw1.call_stack →
      return_subroutine hw2 instruction2 = (hw3, true) →
      hw3.program_counter = hw.program_counter + 1) := by
  refine ⟨?_, ?_, ?_, ?_, ?_⟩
  · intro hfull
    unfold subroutine
    rw [if_pos hfull]
  · intro v hne hv
    unfold subroutine
    rw [if_neg hne]
    dsimp only
    rw [hv]
  · intro hnil
    unfold return_subroutine
    rw [hnil]
    rfl
  · intro p hp
    unfold return_subroutine
    rw [hp]
  · intro hw1 hw3 hpc hsub hstack hret
    unfold subroutine at hsub
    split_ifs at hsub with hfull
    case pos => exact absurd (congrArg Prod.snd hsub) (by simp)
    dsimp only at hsub
    rcases hx : extract_one_operand_value
        { hw with call_stack :=
            hw.call_stack ++ [(hw.program_counter + 1) % 65536] }
        instruction true with _ | v
    · rw [hx] at hsub
      exact absurd (congrArg Prod.snd hsub) (by simp)
    · rw [hx] at hsub
      simp only [Prod.mk.injEq] at hsub
      obtain ⟨hhw1, -⟩ := hsub
      subst hhw1
      dsimp only at hstack
      unfold return_subroutine at hret
      rw [hstack, List.getLast?_concat] at hret
      dsimp only at hret
      simp only [Prod.mk.injEq] at hret
      obtain ⟨hhw3, -⟩ := hret
      subst hhw3
      dsimp only
      exact Nat.mod_eq_of_lt hpc

/-- C6 witness: `SUBROUTINE R2` with `r2 = 3` at PC 0 jumps to 3 pushing
return address 1; the `RETURN` then restores PC 1 — the address after
the SUBROUTINE. -/
theorem c6_subroutine_return_witness :
    ((return_subroutine
      (subroutine
        { Hardware.new 4 with
            memory := [0b0000000011000010, 0, 0, 2],
            registers := [0, 0, 3, 0, 0, 0, 0, 0] }
        0b0000000011000010).1
      2).1).program_counter = 1 := by
  exact (c6_subroutine_return
    { Hardware.new 4 with
        memory := [0b0000000011000010, 0, 0, 2],
        registers := [0, 0, 3, 0, 0, 0, 0, 0] }
    (subroutine
      { Hardware.new 4 with
          memory := [0b0000000011000010, 0, 0, 2],
          registers := [0, 0, 3, 0, 0, 0, 0, 0] }
      0b0000000011000010).1
    0b0000000011000010 2).2.2.2.2
    (subroutine
      { Hardware.new 4 with
          memory := [0b0000000011000010, 0, 0, 2],
          registers := [0, 0, 3, 0, 0, 0, 0, 0] }
      0b0000000011000010).1
    (return_subroutine
      (subroutine
        { Hardware.new 4 with
            memory := [0b0000000011000010, 0, 0, 2],
            registers := [0, 0, 3, 0, 0, 0, 0, 0] }
        0b0000000011000010).1
      2).1
    (by decide) rfl rfl rfl

end Sillyverse
